import Mathlib

/-!
Shallow embedding of `bot.py` (Telegram email-draft bot): the draft builder
inside `mail_command`, the per-user draft storage in `context.user_data`,
the `send_email` dispatcher, the `button_handler` confirmation flow, and the
startup configuration check.  Python strings are modelled as `List Char`,
`context.user_data` (restricted to its single key `email_draft`) as
`Option EmailDraft`, and the fallible `del` statement as an explicit
`Option`-returning operation.
-/

/-- The default whitespace characters removed by Python `str.strip()`
(ASCII range: space, tab, newline, carriage return, vertical tab, form feed). -/
def pySpace (c : Char) : Bool :=
  c = ' ' || c = '\t' || c = '\n' || c = '\r' || c = Char.ofNat 11 || c = Char.ofNat 12

/-- Remove trailing `pySpace` characters (the right half of `str.strip()`). -/
def dropTrailing (l : List Char) : List Char :=
  (l.reverse.dropWhile pySpace).reverse

/-- Python `str.strip()` with no argument: remove leading and trailing whitespace.
Models line 109 of `bot.py`: `content = full_command_text[...].strip()`. -/
def pyStrip (l : List Char) : List Char :=
  dropTrailing (l.dropWhile pySpace)

/-- Python `content.split('\n', 1)` destructured into two variables:
`some (before, after)` splits at the first newline; `none` models the
`ValueError` raised when the separator does not occur (a one-element split). -/
def splitOnceNL : List Char → Option (List Char × List Char)
  | [] => none
  | c :: rest =>
    if c = '\n' then some ([], rest)
    else
      match splitOnceNL rest with
      | some (a, b) => some (c :: a, b)
      | none => none

/-- The subject/body draft dictionary stored under the `email_draft` key of
`context.user_data` (line 122 of `bot.py`). -/
structure EmailDraft where
  subject : List Char
  body : List Char
  deriving DecidableEq

/-- The literal fallback body from line 119 of `bot.py`. -/
def placeholderBody : List Char := "[No body provided]".data

/-- The draft-building core of `mail_command` (lines 109-119 of `bot.py`):
strip the content, reply with usage (`none`) if it is empty, otherwise split
on the first newline, falling back to the whole content as subject and the
placeholder as body when no newline is present. -/
def buildDraft (raw : List Char) : Option EmailDraft :=
  let content := pyStrip raw
  if content = [] then none
  else
    match splitOnceNL content with
    | some (s, b) => some ⟨s, b⟩
    | none => some ⟨content, placeholderBody⟩

/-- Observable outcome of `mail_command`: either the usage reply (no button,
nothing stored) or a drafted reply carrying the confirmation button. -/
inductive MailOutcome
  | usage
  | drafted (d : EmailDraft)
  deriving DecidableEq

/-- `mail_command` (lines 105-137 of `bot.py`) as a state transformer on the
stored draft of the user: on empty stripped content it replies with the usage text
and leaves `user_data` untouched; otherwise it stores the built draft and
presents it with the `Send Email` button. -/
def mail_command (raw : List Char) (ud : Option EmailDraft) :
    Option EmailDraft × MailOutcome :=
  match buildDraft raw with
  | none => (ud, .usage)
  | some d => (some d, .drafted d)

/-- Outcome of the SMTP interaction inside `send_email`: either the message is
delivered, or some step (connect, login, submit) raises an exception carrying
an internal detail string. -/
inductive SmtpOutcome
  | delivered
  | failed (detail : List Char)

/-- `send_email` (lines 56-73 of `bot.py`): any exception from the relay is
caught, logged, and collapsed to `False`; success returns `True`.  The result
is independent of which exception occurred and of the credentials used. -/
def send_email (subject body sender recipient password : List Char)
    (relay : SmtpOutcome) : Bool :=
  match relay with
  | .delivered => true
  | .failed _ => false

/-- The one Python error `button_handler` could in principle raise: a
`KeyError` from deleting the `email_draft` key when it is absent. -/
inductive PyError
  | keyError
  deriving DecidableEq

/-- Everything `button_handler` does to the outside world: whether it answered
the callback query, the `send_email` calls it made (in order), the text it
edited the message to, and the final `user_data` draft entry. -/
structure ButtonEffect where
  answered : Bool
  dispatched : List EmailDraft
  edited : Option (List Char)
  userData : Option EmailDraft
  deriving DecidableEq

/-- The callback token of the inline button (line 129 of `bot.py`). -/
def confirmToken : List Char := "send_email_confirm".data

/-- Guard reply of line 148 of `bot.py`. -/
def draftNotFoundText : List Char :=
  "Sorry, I couldn\x27t find the email draft to send.".data

/-- Success reply of line 155 of `bot.py`. -/
def sendSuccessText : List Char := "✅ Email sent successfully!".data

/-- Failure reply of line 157 of `bot.py`: a fixed string, independent of the
exception that made `send_email` return `False`. -/
def sendFailureText : List Char :=
  "❌ Failed to send email. Please check the server logs.".data

/-- Python `del` of the `email_draft` key: removing an absent key raises
`KeyError` (modelled by `none`); otherwise the entry is removed. -/
def delDraft : Option EmailDraft → Option (Option EmailDraft)
  | none => none
  | some _ => some none

/-- `button_handler` (lines 139-160 of `bot.py`).  `dispatch` abstracts
`send_email` applied to the stored subject and body.  The query is always
answered first; on the confirm token the draft is fetched, the guard replies
when it is absent, otherwise exactly one dispatch happens, the message is
edited to the fixed success or failure text, and the draft is deleted. -/
def button_handler (cbData : List Char) (ud : Option EmailDraft)
    (dispatch : EmailDraft → Bool) : Except PyError ButtonEffect :=
  if cbData = confirmToken then
    match ud with
    | none => .ok ⟨true, [], some draftNotFoundText, none⟩
    | some d =>
      let txt := if dispatch d then sendSuccessText else sendFailureText
      match delDraft (some d) with
      | none => .error .keyError
      | some ud2 => .ok ⟨true, [d], some txt, ud2⟩
  else
    .ok ⟨true, [], none, ud⟩

/-- One full confirmation run for a stored draft `d`: `button_handler`
receiving the confirm token with `send_email` as the dispatcher, the relay
outcome and the credentials made explicit. -/
def runConfirm (d : EmailDraft) (sender recipient password : List Char)
    (relay : SmtpOutcome) : Except PyError ButtonEffect :=
  button_handler confirmToken (some d)
    (fun dr => send_email dr.subject dr.body sender recipient password relay)

/-- The five required environment values read at lines 26-31 of `bot.py`
(`PORT` has a default and is not required). -/
structure Env where
  telegramToken : Option (List Char)
  geminiApiKey : Option (List Char)
  senderEmail : Option (List Char)
  senderAppPassword : Option (List Char)
  recipientEmail : Option (List Char)

/-- Python truthiness of an `os.getenv` result: `None` and the empty string
are falsy. -/
def pyTruthy : Option (List Char) → Bool
  | none => false
  | some s => decide (s ≠ [])

/-- `all([TELEGRAM_TOKEN, GEMINI_API_KEY, SENDER_EMAIL, SENDER_APP_PASSWORD,
RECIPIENT_EMAIL])` from line 34 of `bot.py`. -/
def configOk (e : Env) : Bool :=
  pyTruthy e.telegramToken && pyTruthy e.geminiApiKey && pyTruthy e.senderEmail &&
    pyTruthy e.senderAppPassword && pyTruthy e.recipientEmail

/-- The startup configuration check (lines 34-36 of `bot.py`): `none` means
the process continues to serve events; `some c` means it terminates before
serving any event with process exit status `c`.  The code calls the builtin
`exit()` with no argument, which raises `SystemExit(None)` and makes the
interpreter exit with status `0`. -/
def startupCheck (e : Env) : Option Nat :=
  if configOk e then none else some 0

theorem dropWhile_head_false {α} {p : α → Bool} :
    ∀ {l : List α} {c : α} {t : List α}, l.dropWhile p = c :: t → p c = false := by
  intro l
  induction l with
  | nil => intro c t h; simp [List.dropWhile] at h
  | cons a l ih =>
    intro c t h
    rw [List.dropWhile_cons] at h
    by_cases ha : p a
    · rw [if_pos ha] at h
      exact ih h
    · rw [if_neg ha] at h
      cases h
      exact Bool.eq_false_iff.mpr ha

theorem suffix_getLast? {α} {x y : List α} (h : x <:+ y) (hx : x ≠ []) :
    y.getLast? = x.getLast? := by
  obtain ⟨t, rfl⟩ := h
  rw [List.getLast?_append]
  cases hg : x.getLast? with
  | none => exact absurd (List.getLast?_eq_none_iff.mp hg) hx
  | some c => rfl

theorem head?_pyStrip (l : List Char) :
    (pyStrip l).head? = (l.dropWhile pySpace).head? := by
  unfold pyStrip dropTrailing
  cases hm : l.dropWhile pySpace with
  | nil => simp
  | cons c t =>
    have hc : pySpace c = false := dropWhile_head_false hm
    have hne : (c :: t).reverse.dropWhile pySpace ≠ [] := by
      intro hnil
      have := List.dropWhile_eq_nil_iff.mp hnil c (by simp)
      rw [hc] at this
      exact Bool.false_ne_true this
    rw [List.head?_reverse,
      ← suffix_getLast? (List.dropWhile_suffix pySpace) hne,
      List.getLast?_reverse]

theorem head?_pyStrip_false {l : List Char} {c : Char}
    (h : (pyStrip l).head? = some c) : pySpace c = false := by
  rw [head?_pyStrip] at h
  cases hm : l.dropWhile pySpace with
  | nil => rw [hm] at h; simp at h
  | cons a t =>
    rw [hm] at h
    simp only [List.head?_cons, Option.some.injEq] at h
    subst h
    exact dropWhile_head_false hm

theorem getLast?_pyStrip_false {l : List Char} {c : Char}
    (h : (pyStrip l).getLast? = some c) : pySpace c = false := by
  unfold pyStrip dropTrailing at h
  rw [List.getLast?_reverse] at h
  cases hm : (l.dropWhile pySpace).reverse.dropWhile pySpace with
  | nil => rw [hm] at h; simp at h
  | cons a t =>
    rw [hm] at h
    simp only [List.head?_cons, Option.some.injEq] at h
    subst h
    exact dropWhile_head_false hm

theorem dropWhile_of_head_false {α} {p : α → Bool} {l : List α}
    (h : ∀ c, l.head? = some c → p c = false) : l.dropWhile p = l := by
  cases l with
  | nil => rfl
  | cons a t =>
    have := h a rfl
    rw [List.dropWhile_cons_of_neg (by simp [this])]

theorem pyStrip_idem (l : List Char) : pyStrip (pyStrip l) = pyStrip l := by
  have h1 : (pyStrip l).dropWhile pySpace = pyStrip l := by
    apply dropWhile_of_head_false
    intro c hc
    exact head?_pyStrip_false hc
  have h2 : (pyStrip l).reverse.dropWhile pySpace = (pyStrip l).reverse := by
    apply dropWhile_of_head_false
    intro c hc
    rw [List.head?_reverse] at hc
    exact getLast?_pyStrip_false hc
  show dropTrailing ((pyStrip l).dropWhile pySpace) = pyStrip l
  rw [h1]
  unfold dropTrailing
  rw [h2, List.reverse_reverse]

theorem pyStrip_append_space {x s : List Char}
    (hs : ∀ c ∈ s, pySpace c = true) : pyStrip (x ++ s) = pyStrip x := by
  unfold pyStrip
  rw [List.dropWhile_append]
  by_cases he : (x.dropWhile pySpace).isEmpty
  · rw [if_pos he]
    have hx : x.dropWhile pySpace = [] := by
      cases hm : x.dropWhile pySpace with
      | nil => rfl
      | cons a t => rw [hm] at he; simp [List.isEmpty] at he
    have hsnil : s.dropWhile pySpace = [] := List.dropWhile_eq_nil_iff.mpr hs
    rw [hsnil, hx]
  · rw [if_neg he]
    unfold dropTrailing
    rw [List.reverse_append,
      List.dropWhile_append_of_pos (by intro a ha; exact hs a (List.mem_reverse.mp ha))]

theorem mem_pyStrip {c : Char} {l : List Char} (h : c ∈ pyStrip l) : c ∈ l := by
  unfold pyStrip dropTrailing at h
  rw [List.mem_reverse] at h
  have h2 := (List.dropWhile_suffix pySpace).subset h
  rw [List.mem_reverse] at h2
  exact (List.dropWhile_suffix pySpace).subset h2

theorem splitOnceNL_eq_some :
    ∀ {l a b : List Char}, splitOnceNL l = some (a, b) →
      l = a ++ '\n' :: b ∧ '\n' ∉ a := by
  intro l
  induction l with
  | nil => intro a b h; simp [splitOnceNL] at h
  | cons c rest ih =>
    intro a b h
    unfold splitOnceNL at h
    by_cases hc : c = '\n'
    · rw [if_pos hc] at h
      cases h
      subst hc
      exact ⟨rfl, by simp⟩
    · rw [if_neg hc] at h
      cases hrec : splitOnceNL rest with
      | none => rw [hrec] at h; simp at h
      | some p =>
        obtain ⟨a2, b2⟩ := p
        rw [hrec] at h
        simp only [Option.some.injEq, Prod.mk.injEq] at h
        obtain ⟨ha, hb⟩ := h
        obtain ⟨hrest, hmem⟩ := ih hrec
        subst ha hb hrest
        constructor
        · rfl
        · intro hm
          rcases List.mem_cons.mp hm with h1 | h2
          · exact hc h1.symm
          · exact hmem h2

theorem splitOnceNL_of_split :
    ∀ (a b : List Char), '\n' ∉ a → splitOnceNL (a ++ '\n' :: b) = some (a, b) := by
  intro a
  induction a with
  | nil => intro b _; simp [splitOnceNL]
  | cons c a2 ih =>
    intro b hmem
    have hc : ¬ c = '\n' := fun h => hmem (by rw [h]; exact List.mem_cons_self _ _)
    show splitOnceNL (c :: (a2 ++ '\n' :: b)) = some (c :: a2, b)
    unfold splitOnceNL
    rw [if_neg hc, ih b (fun h => hmem (List.mem_cons_of_mem c h))]

theorem splitOnceNL_eq_none {l : List Char} (h : '\n' ∉ l) : splitOnceNL l = none := by
  induction l with
  | nil => rfl
  | cons c rest ih =>
    have hc : ¬ c = '\n' := fun hce => h (by rw [hce]; exact List.mem_cons_self _ _)
    unfold splitOnceNL
    rw [if_neg hc, ih (fun hm => h (List.mem_cons_of_mem c hm))]

example : buildDraft ("Quick ping".data) = some ⟨"Quick ping".data, placeholderBody⟩ := by
  decide

example :
    buildDraft ("Budget Review\nPlease see attached numbers.".data) =
      some ⟨"Budget Review".data, "Please see attached numbers.".data⟩ := by
  decide

example : buildDraft ("   ".data) = none := by decide

/-- C1: Activating the confirmation control twice in succession for the same
user dispatches exactly once: the first activation sends and removes the
draft, the second hits the absent-draft guard, answers the event, shows the
"nothing to send" notice, makes no dispatch call and changes no state. -/
theorem c1_double_activation_single_dispatch (d : EmailDraft)
    (dispatch : EmailDraft → Bool) :
    ∃ r1 r2 : ButtonEffect,
      button_handler confirmToken (some d) dispatch = .ok r1 ∧
      button_handler confirmToken r1.userData dispatch = .ok r2 ∧
      r1.dispatched = [d] ∧
      r2.dispatched = [] ∧
      r2.edited = some draftNotFoundText ∧
      r2.answered = true ∧
      r2.userData = r1.userData ∧
      r1.dispatched.length + r2.dispatched.length = 1 := by
  refine ⟨⟨true, [d], some (if dispatch d then sendSuccessText else sendFailureText), none⟩,
    ⟨true, [], some draftNotFoundText, none⟩, ?_, ?_, rfl, rfl, rfl, rfl, rfl, rfl⟩
  · simp [button_handler, delDraft]
  · simp [button_handler]

/-- C2: Whatever the dispatcher reports (success or failure), a confirmation
attempt on a stored draft removes the draft: the final `user_data` entry is
absent, exactly one dispatch happened, and the message was edited to the
outcome text. -/
theorem c2_draft_removed_after_attempt (d : EmailDraft)
    (dispatch : EmailDraft → Bool) :
    ∃ r : ButtonEffect,
      button_handler confirmToken (some d) dispatch = .ok r ∧
      r.userData = none ∧
      r.dispatched = [d] ∧
      r.edited = some (if dispatch d then sendSuccessText else sendFailureText) := by
  refine ⟨⟨true, [d], some (if dispatch d then sendSuccessText else sendFailureText), none⟩,
    ?_, rfl, rfl, rfl⟩
  simp [button_handler, delDraft]

/-- C3 counterexample: the input `"Hi\n "` contains a line break, yet the
body of the built draft is the placeholder, not the text `" "` standing after the
first break — the content is stripped before it is split. -/
theorem c3_counterexample :
    ("Hi\n ".data = "Hi".data ++ '\n' :: " ".data) ∧
    buildDraft ("Hi\n ".data) = some ⟨"Hi".data, placeholderBody⟩ ∧
    buildDraft ("Hi\n ".data) ≠ some ⟨"Hi".data, " ".data⟩ := by
  decide

/-- C3 amended: for every input equal to its stripped form (no leading or
trailing whitespace) that contains a line break, the subject is the text
before the first break and the body is everything after it, further breaks
included. -/
theorem c3_split_trimmed (raw a b : List Char) (ha : '\n' ∉ a)
    (hr : raw = a ++ '\n' :: b) (ht : pyStrip raw = raw) :
    buildDraft raw = some ⟨a, b⟩ := by
  subst hr
  have hne : a ++ '\n' :: b ≠ [] := by simp
  simp only [buildDraft, ht, if_neg hne, splitOnceNL_of_split a b ha]

/-- Witness for C3 amended at the spec scenario input. -/
theorem c3_witness :
    buildDraft ("Budget Review\nPlease see attached numbers.".data) =
      some ⟨"Budget Review".data, "Please see attached numbers.".data⟩ :=
  c3_split_trimmed ("Budget Review\nPlease see attached numbers.".data)
    ("Budget Review".data) ("Please see attached numbers.".data)
    (by decide) (by decide) (by decide)

/-- C4 counterexample: `" Quick ping"` contains no line break, yet the built
subject of the built draft is the stripped text `"Quick ping"`, not the entire input. -/
theorem c4_counterexample :
    ('\n' ∉ " Quick ping".data) ∧
    buildDraft (" Quick ping".data) = some ⟨"Quick ping".data, placeholderBody⟩ ∧
    buildDraft (" Quick ping".data) ≠ some ⟨" Quick ping".data, placeholderBody⟩ := by
  decide

/-- C4 amended: for every input with no line break that is not whitespace-only,
the subject is the stripped input and the body is the fixed placeholder; in
particular `"Quick ping"` yields exactly the scenario draft of the spec. -/
theorem c4_no_break_placeholder (raw : List Char) (hnl : '\n' ∉ raw)
    (hne : pyStrip raw ≠ []) :
    buildDraft raw = some ⟨pyStrip raw, placeholderBody⟩ ∧
    buildDraft ("Quick ping".data) = some ⟨"Quick ping".data, placeholderBody⟩ := by
  constructor
  · have hnl2 : '\n' ∉ pyStrip raw := fun h => hnl (mem_pyStrip h)
    simp only [buildDraft, if_neg hne, splitOnceNL_eq_none hnl2]
  · decide

/-- Witness for C4 amended on a padded input. -/
theorem c4_witness :
    buildDraft (" Quick ping ".data) =
      some ⟨pyStrip (" Quick ping ".data), placeholderBody⟩ :=
  (c4_no_break_placeholder (" Quick ping ".data) (by decide) (by decide)).1

/-- C5: when the command content strips to nothing, `mail_command` replies
with the usage message, stores no draft, leaves the existing `user_data`
entry unchanged and presents no confirmation control. -/
theorem c5_empty_input_no_draft (raw : List Char) (ud : Option EmailDraft)
    (h : pyStrip raw = []) :
    mail_command raw ud = (ud, MailOutcome.usage) := by
  simp only [mail_command, buildDraft, h, if_pos]

/-- Witness for C5 on whitespace-only content with a pre-existing draft. -/
theorem c5_witness :
    mail_command ("   ".data) (some ⟨"a".data, "b".data⟩) =
      (some ⟨"a".data, "b".data⟩, MailOutcome.usage) :=
  c5_empty_input_no_draft ("   ".data) (some ⟨"a".data, "b".data⟩) (by decide)

/-- C6: every draft `mail_command` ever stores has a non-empty subject and a
non-empty body (the placeholder substituting for a missing body). -/
theorem c6_draft_fields_nonempty (raw : List Char) (ud ud2 : Option EmailDraft)
    (d : EmailDraft) (h : mail_command raw ud = (ud2, MailOutcome.drafted d)) :
    d.subject ≠ [] ∧ d.body ≠ [] := by
  have hb : buildDraft raw = some d := by
    unfold mail_command at h
    cases hb : buildDraft raw with
    | none => rw [hb] at h; simp at h
    | some d2 =>
      rw [hb] at h
      simp only [Prod.mk.injEq, MailOutcome.drafted.injEq] at h
      rw [h.2]
  unfold buildDraft at hb
  by_cases hne : pyStrip raw = []
  · rw [if_pos hne] at hb; exact absurd hb (by simp)
  · rw [if_neg hne] at hb
    cases hsp : splitOnceNL (pyStrip raw) with
    | none =>
      rw [hsp] at hb
      cases hb
      refine ⟨hne, ?_⟩
      show placeholderBody ≠ []
      decide
    | some p =>
      obtain ⟨a, b⟩ := p
      rw [hsp] at hb
      cases hb
      obtain ⟨hdec, hmem⟩ := splitOnceNL_eq_some hsp
      constructor
      · intro ha
        rw [show a = [] from ha] at hdec
        have : (pyStrip raw).head? = some '\n' := by rw [hdec]; rfl
        have := head?_pyStrip_false this
        simp [pySpace] at this
      · intro hb0
        rw [show b = [] from hb0] at hdec
        have : (pyStrip raw).getLast? = some '\n' := by
          rw [hdec]
          exact List.getLast?_concat a
        have := getLast?_pyStrip_false this
        simp [pySpace] at this

/-- Witness for C6 at a concrete drafted command. -/
theorem c6_witness :
    ("S".data ≠ ([] : List Char)) ∧ ("B".data ≠ ([] : List Char)) :=
  c6_draft_fields_nonempty ("S\nB".data) none (some ⟨"S".data, "B".data⟩)
    ⟨"S".data, "B".data⟩ (by decide)

/-- C7 (code bug): whenever a required configuration value is missing the
process does terminate before serving any event, but `bot.py` line 36 calls
the builtin `exit()` with no argument, so the interpreter exits with status
`0` — not the non-zero exit code the claim requires. -/
theorem c7_missing_config_exits_zero (e : Env) (h : configOk e = false) :
    startupCheck e = some 0 := by
  simp [startupCheck, h]

/-- Witness for C7 with every required environment value absent. -/
theorem c7_witness : startupCheck ⟨none, none, none, none, none⟩ = some 0 :=
  c7_missing_config_exits_zero ⟨none, none, none, none, none⟩ (by decide)

/-- C8: for any two confirmation runs whose dispatch fails — with arbitrary,
possibly different internal error details and credentials — the text shown to
the user is the same fixed generic failure string; the message is a constant,
so it carries no exception text and no credentials. -/
theorem c8_failure_message_fixed (d1 d2 : EmailDraft)
    (s1 s2 t1 t2 p1 p2 e1 e2 : List Char) :
    ∃ r1 r2 : ButtonEffect,
      runConfirm d1 s1 t1 p1 (SmtpOutcome.failed e1) = .ok r1 ∧
      runConfirm d2 s2 t2 p2 (SmtpOutcome.failed e2) = .ok r2 ∧
      r1.edited = r2.edited ∧
      r1.edited = some sendFailureText := by
  refine ⟨⟨true, [d1], some sendFailureText, none⟩,
    ⟨true, [d2], some sendFailureText, none⟩, ?_, ?_, rfl, rfl⟩
  · simp [runConfirm, button_handler, send_email, delDraft]
  · simp [runConfirm, button_handler, send_email, delDraft]

/-- C9: deleting the `email_draft` key in `button_handler` can never
raise `KeyError`: on every callback event, for every prior store state and
every dispatcher, the handler finishes without an exception, because the
delete is only reached past the guard that returned when the draft was
absent. -/
theorem c9_delete_never_fails (cbData : List Char) (ud : Option EmailDraft)
    (dispatch : EmailDraft → Bool) :
    ∃ r : ButtonEffect, button_handler cbData ud dispatch = Except.ok r := by
  unfold button_handler
  by_cases h : cbData = confirmToken
  · rw [if_pos h]
    cases ud with
    | none => exact ⟨_, rfl⟩
    | some d => exact ⟨_, rfl⟩
  · rw [if_neg h]
    exact ⟨_, rfl⟩

/-- C10: the command content is stripped of surrounding whitespace (line
breaks included) before the split, so building from the raw content and from
its stripped form agree; when everything after the first line break is
whitespace the stored body is the placeholder; and the stored subject always
starts at the first non-whitespace character of the input. -/
theorem c10_trim_before_split (raw : List Char) :
    buildDraft raw = buildDraft (pyStrip raw) ∧
    (∀ a b : List Char, raw = a ++ '\n' :: b → '\n' ∉ a →
      (∀ c ∈ b, pySpace c = true) →
      ∀ d : EmailDraft, buildDraft raw = some d → d.body = placeholderBody) ∧
    (∀ d : EmailDraft, buildDraft raw = some d →
      d.subject.head? = (raw.dropWhile pySpace).head?) := by
  refine ⟨?_, ?_, ?_⟩
  · simp only [buildDraft, pyStrip_idem]
  · intro a b hr ha hb d hd
    subst hr
    have hsp : ∀ c ∈ ('\n' :: b), pySpace c = true := by
      intro c hc
      rcases List.mem_cons.mp hc with h1 | h2
      · rw [h1]; decide
      · exact hb c h2
    have key : pyStrip (a ++ '\n' :: b) = pyStrip a := pyStrip_append_space hsp
    have hnl : '\n' ∉ pyStrip a := fun h => ha (mem_pyStrip h)
    simp only [buildDraft, key, splitOnceNL_eq_none hnl] at hd
    by_cases hne : pyStrip a = []
    · rw [if_pos hne] at hd
      exact absurd hd (by simp)
    · rw [if_neg hne] at hd
      cases hd
      rfl
  · intro d hd
    unfold buildDraft at hd
    by_cases hne : pyStrip raw = []
    · rw [if_pos hne] at hd
      exact absurd hd (by simp)
    · rw [if_neg hne] at hd
      cases hsp : splitOnceNL (pyStrip raw) with
      | none =>
        rw [hsp] at hd
        cases hd
        exact head?_pyStrip raw
      | some p =>
        obtain ⟨a, b⟩ := p
        rw [hsp] at hd
        cases hd
        obtain ⟨hdec, hmem⟩ := splitOnceNL_eq_some hsp
        have hane : a ≠ [] := by
          intro ha
          rw [ha] at hdec
          have : (pyStrip raw).head? = some '\n' := by rw [hdec]; rfl
          have := head?_pyStrip_false this
          simp [pySpace] at this
        show a.head? = (raw.dropWhile pySpace).head?
        rw [← head?_pyStrip raw, hdec]
        cases a with
        | nil => exact absurd rfl hane
        | cons c t => rfl

/-- Witness for C10: the trim/split agreement, the whitespace-only-tail input
`"Subject\n  "` yielding the placeholder body, and a leading-line-breaks
input whose subject starts at the first non-whitespace character. -/
theorem c10_witness :
    buildDraft ("Subject\n  ".data) = buildDraft (pyStrip ("Subject\n  ".data)) ∧
    (∃ d : EmailDraft,
      buildDraft ("Subject\n  ".data) = some d ∧ d.body = placeholderBody) ∧
    (∃ d : EmailDraft, buildDraft ("\n\nQuick\nping".data) = some d ∧
      d.subject.head? = some 'Q') :=
  ⟨(c10_trim_before_split ("Subject\n  ".data)).1,
   ⟨⟨"Subject".data, placeholderBody⟩, by decide,
     (c10_trim_before_split ("Subject\n  ".data)).2.1 ("Subject".data) ("  ".data)
       (by decide) (by decide) (by decide)
       ⟨"Subject".data, placeholderBody⟩ (by decide)⟩,
   ⟨⟨"Quick".data, "ping".data⟩, by decide,
     ((c10_trim_before_split ("\n\nQuick\nping".data)).2.2
        ⟨"Quick".data, "ping".data⟩ (by decide)).trans (by decide)⟩⟩
